import Mathlib

/-!
Verification of `ap_common/calibration_matching.py`: matching of master
calibration frames (darks, biases, flats) to light frames by metadata.

The embedding models Python metadata dictionaries as association lists from
string keys to `PyVal` values (the explicit `None`, a number, or a string).
Python floats are modelled as rationals: every numeric comparison performed by
the code (equality, `<`, `abs`-difference against a tolerance) is exact on the
values that occur.  `float(str)` coercion is modelled by a plain decimal
parser `pyFloat?` covering optional surrounding whitespace, an optional sign
and an optional fractional part; coercion failure yields `Option.none`, as in
the source, where `ValueError`/`TypeError` is caught and turned into `None`.
-/

attribute [local semireducible] Rat.add Rat.sub Rat.mul Rat.inv Rat.ofScientific

namespace CalibrationMatching

/-- A Python value stored in a metadata dictionary: the explicit `None`
marker, a number, or a string. -/
inductive PyVal where
  | none
  | num (val : ℚ)
  | str (val : String)
deriving DecidableEq

/-- A metadata dictionary: association list from keys to values, looked up by
first occurrence (Python dict keys are unique). -/
abbrev Meta := List (String × PyVal)

/-- A calibration pool: mapping from filenames to metadata dictionaries,
in iteration order. -/
abbrev Pool := List (String × Meta)

/-- Numeric value of a decimal digit character. -/
def digitVal (c : Char) : ℕ := c.toNat - 48

/-- Natural number denoted by a list of decimal digit characters. -/
def natOfDigits (ds : List Char) : ℕ :=
  ds.foldl (fun n c => 10 * n + digitVal c) 0

/-- Model of Python `float(s)` on strings: optional surrounding whitespace,
optional sign, decimal digits with an optional fractional part (at least one
digit overall).  Returns `Option.none` when the string is not of this shape,
matching the caught `ValueError`. -/
def pyFloat? (s : String) : Option ℚ :=
  let cs := s.toList.dropWhile Char.isWhitespace
  let cs := (cs.reverse.dropWhile Char.isWhitespace).reverse
  let signAndRest : ℚ × List Char :=
    match cs with
    | '-' :: r => (-1, r)
    | '+' :: r => (1, r)
    | _ => (1, cs)
  let sgn := signAndRest.1
  let ipSplit := signAndRest.2.span Char.isDigit
  let fpSplit : List Char × List Char :=
    match ipSplit.2 with
    | '.' :: r => r.span Char.isDigit
    | _ => ([], ipSplit.2)
  if fpSplit.2 = [] ∧ (ipSplit.1 ≠ [] ∨ fpSplit.1 ≠ []) then
    some (sgn * ((natOfDigits ipSplit.1 : ℚ) +
      (natOfDigits fpSplit.1 : ℚ) / (10 : ℚ) ^ fpSplit.1.length))
  else Option.none

/-- Model of `_get_float_value`: safely extract a float from metadata.  Missing key,
explicit `None`, or failed coercion give `Option.none`. -/
def _get_float_value (metadata : Meta) (key : String) : Option ℚ :=
  match metadata.lookup key with
  | Option.none => Option.none
  | some PyVal.none => Option.none
  | some (PyVal.num v) => some v
  | some (PyVal.str s) => pyFloat? s

/-- Rendering of a non-`None` Python value by `str(...)`.  Number rendering is
abstracted by the rational's canonical string; no matching decision in the
source depends on the rendering of a numeric value. -/
def pyStr : PyVal → String
  | PyVal.none => "None"
  | PyVal.num v => toString v
  | PyVal.str s => s

/-- Model of `_get_str_value`: safely extract a string from metadata.  Missing key or
explicit `None` give `Option.none`; any other value is rendered by `str`. -/
def _get_str_value (metadata : Meta) (key : String) : Option String :=
  match metadata.lookup key with
  | Option.none => Option.none
  | some PyVal.none => Option.none
  | some v => some (pyStr v)

/-! Constants from `ap_common/constants.py`. -/

def NORMALIZED_HEADER_CAMERA : String := "camera"
def NORMALIZED_HEADER_EXPOSURESECONDS : String := "exposureseconds"
def NORMALIZED_HEADER_FILTER : String := "filter"
def NORMALIZED_HEADER_GAIN : String := "gain"
def NORMALIZED_HEADER_OFFSET : String := "offset"
def NORMALIZED_HEADER_SETTEMP : String := "settemp"
def NORMALIZED_HEADER_DATE : String := "date"
def NORMALIZED_HEADER_TYPE : String := "type"
def TYPE_MASTER_DARK : String := "MASTER DARK"
def TYPE_MASTER_BIAS : String := "MASTER BIAS"
def TYPE_MASTER_FLAT : String := "MASTER FLAT"
def TYPE_DARK : String := "DARK"
def TYPE_BIAS : String := "BIAS"
def TYPE_FLAT : String := "FLAT"

/-- The gain comparison of `_matches_camera_settings`: a mismatch is reported
only when both sides carry a coercible gain value and the values differ. -/
def gainMismatch (light_metadata calibration_metadata : Meta) : Bool :=
  match _get_float_value light_metadata NORMALIZED_HEADER_GAIN,
        _get_float_value calibration_metadata NORMALIZED_HEADER_GAIN with
  | some lg, some cg => lg ≠ cg
  | _, _ => false

/-- The offset comparison of `_matches_camera_settings`: a mismatch is
reported only when both sides carry a coercible offset value and the values
differ. -/
def offsetMismatch (light_metadata calibration_metadata : Meta) : Bool :=
  match _get_float_value light_metadata NORMALIZED_HEADER_OFFSET,
        _get_float_value calibration_metadata NORMALIZED_HEADER_OFFSET with
  | some lo, some co => lo ≠ co
  | _, _ => false

/-- Model of `_matches_camera_settings`: cameras must both be present and equal; when
`match_gain` (resp. `match_offset`) is set and both sides have a gain
(resp. offset) value, the values must be equal. -/
def _matches_camera_settings (light_metadata calibration_metadata : Meta)
    (match_gain match_offset : Bool) : Bool :=
  match _get_str_value light_metadata NORMALIZED_HEADER_CAMERA,
        _get_str_value calibration_metadata NORMALIZED_HEADER_CAMERA with
  | some light_camera, some cal_camera =>
    if light_camera ≠ cal_camera then false
    else if match_gain && gainMismatch light_metadata calibration_metadata then false
    else if match_offset && offsetMismatch light_metadata calibration_metadata then false
    else true
  | _, _ => false

/-- Python `str.upper()` on the strings at hand (frame types are ASCII):
uppercase each character of the string.  `Char.toUpper` is the same ASCII
case mapping. -/
def strUpper (s : String) : String :=
  String.mk (s.toList.map Char.toUpper)

/-- Model of `_is_calibration_type`: the frame's `type` field, uppercased, equals the
raw calibration type or the master calibration type. -/
def _is_calibration_type (metadata : Meta) (calibration_type master_type : String) : Bool :=
  match _get_str_value metadata NORMALIZED_HEADER_TYPE with
  | Option.none => false
  | some frame_type =>
    strUpper frame_type = calibration_type || strUpper frame_type = master_type

/-! ## Dates

`find_matching_flat` parses date strings with `datetime.strptime`.  The model
below reproduces CPython `_strptime` for the three format strings that occur:
each format compiles to a regex over the directive patterns
`Y = \d\d\d\d`, `m = 1[0-2]|0[1-9]|[1-9]`, `d = 3[0-1]|[1-2]\d|0[1-9]|[1-9]| [1-9]`,
`H = 2[0-3]|[0-1]\d|\d`, `M = [0-5]\d|\d`, `S = 6[0-1]|[0-5]\d|\d`;
the regex engine tries the alternatives of each directive in order with
backtracking, a match is a prefix match, `strptime` then fails when unconverted
characters remain, and finally the matched fields must form a valid calendar
date (`datetime(...)` raises `ValueError` otherwise). -/

/-- A calendar date as produced by a successful `strptime` (the time part of
the parsed value is always midnight for the truncated inputs at hand). -/
structure PDate where
  year : ℕ
  month : ℕ
  day : ℕ
deriving DecidableEq

/-- Gregorian leap-year rule, as used by Python's `datetime`. -/
def isLeapYear (y : ℕ) : Bool :=
  y % 4 = 0 && (y % 100 ≠ 0 || y % 400 = 0)

/-- Number of days in a month of a given year. -/
def daysInMonth (y m : ℕ) : ℕ :=
  if m = 2 then (if isLeapYear y then 29 else 28)
  else if m = 4 ∨ m = 6 ∨ m = 9 ∨ m = 11 then 30
  else 31

/-- Validity of a `datetime(y, m, d)` construction. -/
def dateValid (y m d : ℕ) : Bool :=
  1 ≤ y && y ≤ 9999 && 1 ≤ m && m ≤ 12 && 1 ≤ d && d ≤ daysInMonth y m

/-- Day number of a calendar date (days since 1970-01-01, civil calendar).
Subtracting two day numbers gives the exact `timedelta.days` of the
corresponding midnight datetimes. -/
def rataDie (dt : PDate) : ℤ :=
  let y : ℤ := if dt.month ≤ 2 then (dt.year : ℤ) - 1 else (dt.year : ℤ)
  let m : ℤ := dt.month
  let d : ℤ := dt.day
  let era : ℤ := y / 400
  let yoe : ℤ := y - era * 400
  let doy : ℤ := (153 * (m + (if 2 < m then -3 else 9)) + 2) / 5 + d - 1
  let doe : ℤ := yoe * 365 + yoe / 4 - yoe / 100 + doy
  era * 146097 + doe - 719468

/-- One alternative of a directive's regex: consume a prefix of the character
list and return the numeric field value together with the rest. -/
abbrev Branch := List Char → Option (ℕ × List Char)

/-- Alternative matching two characters satisfying the given classes, read as
a two-digit number. -/
def twoDigit (p q : Char → Bool) : Branch := fun cs =>
  match cs with
  | a :: b :: r => if p a && q b then some (10 * digitVal a + digitVal b, r) else Option.none
  | _ => Option.none

/-- Alternative matching one character of the given class, read as a digit. -/
def oneDigit (p : Char → Bool) : Branch := fun cs =>
  match cs with
  | a :: r => if p a then some (digitVal a, r) else Option.none
  | _ => Option.none

/-- Alternative matching a blank followed by a digit of the given class
(the trailing `' [1-9]'` alternative of the day directive). -/
def blankDigit (p : Char → Bool) : Branch := fun cs =>
  match cs with
  | a :: b :: r => if a = ' ' && p b then some (digitVal b, r) else Option.none
  | _ => Option.none

/-- Directive `%Y`: exactly four digits. -/
def matchYear : List Char → Option (ℕ × List Char) := fun cs =>
  match cs with
  | a :: b :: c :: d :: r =>
    if a.isDigit && b.isDigit && c.isDigit && d.isDigit then
      some (1000 * digitVal a + 100 * digitVal b + 10 * digitVal c + digitVal d, r)
    else Option.none
  | _ => Option.none

/-- A literal character of the format string. -/
def lit (c : Char) : List Char → Option (List Char) := fun cs =>
  match cs with
  | x :: r => if x = c then some r else Option.none
  | _ => Option.none

/-- The ordered alternatives of `%m`: `1[0-2]|0[1-9]|[1-9]`. -/
def monthBranches : List Branch :=
  [twoDigit (· = '1') (fun c => '0' ≤ c && c ≤ '2'),
   twoDigit (· = '0') (fun c => '1' ≤ c && c ≤ '9'),
   oneDigit (fun c => '1' ≤ c && c ≤ '9')]

/-- The ordered alternatives of `%d`: `3[0-1]|[1-2]\d|0[1-9]|[1-9]| [1-9]`. -/
def dayBranches : List Branch :=
  [twoDigit (· = '3') (fun c => c = '0' || c = '1'),
   twoDigit (fun c => c = '1' || c = '2') Char.isDigit,
   twoDigit (· = '0') (fun c => '1' ≤ c && c ≤ '9'),
   oneDigit (fun c => '1' ≤ c && c ≤ '9'),
   blankDigit (fun c => '1' ≤ c && c ≤ '9')]

/-- The ordered alternatives of `%H`: `2[0-3]|[0-1]\d|\d`. -/
def hourBranches : List Branch :=
  [twoDigit (· = '2') (fun c => '0' ≤ c && c ≤ '3'),
   twoDigit (fun c => c = '0' || c = '1') Char.isDigit,
   oneDigit Char.isDigit]

/-- The ordered alternatives of `%M`: `[0-5]\d|\d`. -/
def minuteBranches : List Branch :=
  [twoDigit (fun c => '0' ≤ c && c ≤ '5') Char.isDigit,
   oneDigit Char.isDigit]

/-- The ordered alternatives of `%S`: `6[0-1]|[0-5]\d|\d`. -/
def secondBranches : List Branch :=
  [twoDigit (· = '6') (fun c => c = '0' || c = '1'),
   twoDigit (fun c => '0' ≤ c && c ≤ '5') Char.isDigit,
   oneDigit Char.isDigit]

/-- First successful alternative, in regex alternation order. -/
def firstSome : List (Option α) → Option α
  | [] => Option.none
  | Option.none :: rest => firstSome rest
  | some a :: _ => some a

/-- Regex match of `%Y%m%d` against a prefix of `cs`, with backtracking over
the directive alternatives in order; returns year, month, day and the
unconsumed rest. -/
def matchCompactYmd (cs : List Char) : Option (ℕ × ℕ × ℕ × List Char) :=
  (matchYear cs).bind fun yr =>
    firstSome (monthBranches.map fun bm =>
      (bm yr.2).bind fun mr =>
        firstSome (dayBranches.map fun bd =>
          (bd mr.2).map fun dr => (yr.1, mr.1, dr.1, dr.2)))

/-- Regex match of `%Y-%m-%d` against a prefix of `cs`. -/
def matchDashedYmd (cs : List Char) : Option (ℕ × ℕ × ℕ × List Char) :=
  (matchYear cs).bind fun yr =>
    (lit '-' yr.2).bind fun r1 =>
      firstSome (monthBranches.map fun bm =>
        (bm r1).bind fun mr =>
          (lit '-' mr.2).bind fun r2 =>
            firstSome (dayBranches.map fun bd =>
              (bd r2).map fun dr => (yr.1, mr.1, dr.1, dr.2)))

/-- Regex match of `%Y-%m-%dT%H:%M:%S` against a prefix of `cs` (the matched
time-of-day fields are discarded: this pattern needs at least 14 characters,
so it never matches the 10-character truncations it is applied to). -/
def matchDashedYmdTHMS (cs : List Char) : Option (ℕ × ℕ × ℕ × List Char) :=
  (matchYear cs).bind fun yr =>
    (lit '-' yr.2).bind fun r1 =>
      firstSome (monthBranches.map fun bm =>
        (bm r1).bind fun mr =>
          (lit '-' mr.2).bind fun r2 =>
            firstSome (dayBranches.map fun bd =>
              (bd r2).bind fun dr =>
                (lit 'T' dr.2).bind fun r3 =>
                  firstSome (hourBranches.map fun bh =>
                    (bh r3).bind fun hr =>
                      (lit ':' hr.2).bind fun r4 =>
                        firstSome (minuteBranches.map fun bmin =>
                          (bmin r4).bind fun minr =>
                            (lit ':' minr.2).bind fun r5 =>
                              firstSome (secondBranches.map fun bsec =>
                                (bsec r5).map fun sr => (yr.1, mr.1, dr.1, sr.2))))))

/-- Model of `datetime.strptime(s, fmt)` for one of the three formats: the regex must
match with nothing left unconverted, and the fields must form a valid
calendar date. -/
def strptimeWith (matcher : List Char → Option (ℕ × ℕ × ℕ × List Char))
    (cs : List Char) : Option PDate :=
  match matcher cs with
  | Option.none => Option.none
  | some (y, m, d, rest) =>
    if rest.isEmpty then
      if dateValid y m d then some ⟨y, m, d⟩ else Option.none
    else Option.none

/-- The fallback date-parsing chain of `find_matching_flat` (source lines
306-320 and 344-356).  For each format the source truncates the input to
`len(fmt.replace("%","").replace("-","").replace(":","").replace("T","")) + 4`
characters, which is 7 for `"%Y-%m-%d"`, 7 for `"%Y%m%d"` and 10 for
`"%Y-%m-%dT%H:%M:%S"`; when all three fail, the first 10 characters are
parsed as `"%Y-%m-%d"`. -/
def parse_date_chain (s : String) : Option PDate :=
  let cs := s.toList
  match strptimeWith matchDashedYmd (cs.take 7) with
  | some d => some d
  | Option.none =>
  match strptimeWith matchCompactYmd (cs.take 7) with
  | some d => some d
  | Option.none =>
  match strptimeWith matchDashedYmdTHMS (cs.take 10) with
  | some d => some d
  | Option.none => strptimeWith matchDashedYmd (cs.take 10)

/-- The calendar date denoted by a compact numeric date string, following the
claim's words: exactly eight digits read as `YYYYMMDD`, denoting a valid
calendar date. -/
def compactDateDenotes (s : String) : Option PDate :=
  match s.toList with
  | [y1, y2, y3, y4, m1, m2, d1, d2] =>
    if (y1.isDigit && y2.isDigit && y3.isDigit && y4.isDigit &&
        m1.isDigit && m2.isDigit && d1.isDigit && d2.isDigit) then
      let y := 1000 * digitVal y1 + 100 * digitVal y2 + 10 * digitVal y3 + digitVal y4
      let m := 10 * digitVal m1 + digitVal m2
      let d := 10 * digitVal d1 + digitVal d2
      if dateValid y m d then some ⟨y, m, d⟩ else Option.none
    else Option.none
  | _ => Option.none

/-! ## Sorting

Python's `list.sort(key=...)` sorts ascending by key and is stable: elements
with equal keys keep their original relative order.  Insertion sort with the
non-strict key comparison has exactly this behaviour. -/

/-- The comparison used by `list.sort(key=...)`. -/
def keyLe [LinearOrder β] (key : α → β) (a b : α) : Prop := key a ≤ key b

instance keyLe.instDecidableRel [LinearOrder β] (key : α → β) :
    DecidableRel (keyLe key) :=
  fun a b => inferInstanceAs (Decidable (key a ≤ key b))

/-- Python's stable `list.sort(key=...)`. -/
def sortByKey [LinearOrder β] (key : α → β) (l : List α) : List α :=
  l.insertionSort (keyLe key)

/-! ## The matchers -/

/-- The temperature filter of `find_matching_dark` (source lines 198-202):
checked only when both the light and the dark carry a numeric `settemp`, and
then the absolute difference must not exceed the tolerance. -/
def temp_check_ok (light_temp dark_temp : Option ℚ) (temperature_tolerance : ℚ) : Bool :=
  match light_temp, dark_temp with
  | some lt, some dt => !(temperature_tolerance < |lt - dt|)
  | _, _ => true

/-- An entry of the `candidates` list built by `find_matching_dark`. -/
structure DarkCandidate where
  filename : String
  is_exact : Bool
  exposure_diff : ℚ
  exposure : ℚ
deriving DecidableEq

/-- The body of the candidate loop of `find_matching_dark`: all the `continue`
filters in source order, then the candidate record. -/
def darkCandidate? (light_metadata : Meta) (light_exposure : ℚ) (light_temp : Option ℚ)
    (temperature_tolerance : ℚ) (match_gain match_offset : Bool)
    (filename : String) (cal_metadata : Meta) : Option DarkCandidate :=
  if _is_calibration_type cal_metadata TYPE_DARK TYPE_MASTER_DARK = false then Option.none
  else if _matches_camera_settings light_metadata cal_metadata match_gain match_offset = false then
    Option.none
  else
    match _get_float_value cal_metadata NORMALIZED_HEADER_EXPOSURESECONDS with
    | Option.none => Option.none
    | some dark_exposure =>
      if dark_exposure < light_exposure then Option.none
      else if temp_check_ok light_temp (_get_float_value cal_metadata NORMALIZED_HEADER_SETTEMP)
          temperature_tolerance = false then Option.none
      else
        some { filename := filename,
               is_exact := decide (|dark_exposure - light_exposure| < 0.001),
               exposure_diff := dark_exposure - light_exposure,
               exposure := dark_exposure }

/-- The `candidates` list of `find_matching_dark`, in pool iteration order. -/
def darkCandidates (light_metadata : Meta) (calibration_data : Pool)
    (temperature_tolerance : ℚ) (match_gain match_offset : Bool) : List DarkCandidate :=
  match _get_float_value light_metadata NORMALIZED_HEADER_EXPOSURESECONDS with
  | Option.none => []
  | some light_exposure =>
    calibration_data.filterMap fun e =>
      darkCandidate? light_metadata light_exposure
        (_get_float_value light_metadata NORMALIZED_HEADER_SETTEMP)
        temperature_tolerance match_gain match_offset e.1 e.2

/-- The sort key `(not is_exact, exposure_diff)` used when
`prefer_exact_exposure` is set; Python compares such tuples lexicographically
with `False < True`. -/
def darkSortKey (c : DarkCandidate) : Bool ×ₗ ℚ :=
  toLex (!c.is_exact, c.exposure_diff)

/-- Model of `find_matching_dark`: filter the pool into a candidate list, sort it by
the selected key, and return the first candidate's filename. -/
def find_matching_dark (light_metadata : Meta) (calibration_data : Pool)
    (temperature_tolerance : ℚ) (prefer_exact_exposure match_gain match_offset : Bool) :
    Option String :=
  match _get_float_value light_metadata NORMALIZED_HEADER_EXPOSURESECONDS with
  | Option.none => Option.none
  | some _ =>
    match (if prefer_exact_exposure then
        sortByKey darkSortKey (darkCandidates light_metadata calibration_data
          temperature_tolerance match_gain match_offset)
      else
        sortByKey DarkCandidate.exposure_diff (darkCandidates light_metadata calibration_data
          temperature_tolerance match_gain match_offset)).head? with
    | Option.none => Option.none
    | some c => some c.filename

/-- The acceptance test of the `find_matching_bias` loop body. -/
def biasQualifies (light_metadata cal_metadata : Meta) (match_gain match_offset : Bool) : Bool :=
  _is_calibration_type cal_metadata TYPE_BIAS TYPE_MASTER_BIAS &&
    _matches_camera_settings light_metadata cal_metadata match_gain match_offset

/-- Model of `find_matching_bias`: return the first pool entry, in iteration order,
that is a bias frame and matches the camera settings. -/
def find_matching_bias (light_metadata : Meta) (calibration_data : Pool)
    (match_gain match_offset : Bool) : Option String :=
  match calibration_data with
  | [] => Option.none
  | (filename, cal_metadata) :: rest =>
    if _is_calibration_type cal_metadata TYPE_BIAS TYPE_MASTER_BIAS = false then
      find_matching_bias light_metadata rest match_gain match_offset
    else if _matches_camera_settings light_metadata cal_metadata match_gain match_offset = false then
      find_matching_bias light_metadata rest match_gain match_offset
    else some filename

/-- An entry of the `candidates` list built by `find_matching_flat`:
`days_diff` is the absolute day difference, or `float("inf")` (here `⊤`) when
no date comparison took place. -/
structure FlatCandidate where
  filename : String
  days_diff : WithTop ℤ
deriving DecidableEq

/-- The light's parsed date: only computed when a date tolerance is given and
the light has a date string, and absent when the chain fails to parse it. -/
def lightDateOf (light_metadata : Meta) (date_tolerance_days : Option ℤ) : Option PDate :=
  match date_tolerance_days, _get_str_value light_metadata NORMALIZED_HEADER_DATE with
  | some _, some ds => parse_date_chain ds
  | _, _ => Option.none

/-- The body of the candidate loop of `find_matching_flat`: the `continue`
filters in source order; an unparseable candidate date leaves the date check
skipped (`days_diff` absent), while a parsed date farther than the tolerance
rejects the candidate. -/
def flatCandidate? (light_metadata : Meta) (light_filter : String) (light_date : Option PDate)
    (date_tolerance_days : Option ℤ) (match_gain match_offset : Bool)
    (filename : String) (cal_metadata : Meta) : Option FlatCandidate :=
  if _is_calibration_type cal_metadata TYPE_FLAT TYPE_MASTER_FLAT = false then Option.none
  else if _matches_camera_settings light_metadata cal_metadata match_gain match_offset = false then
    Option.none
  else
    match _get_str_value cal_metadata NORMALIZED_HEADER_FILTER with
    | Option.none => Option.none
    | some flat_filter =>
      if flat_filter ≠ light_filter then Option.none
      else
        match date_tolerance_days, light_date with
        | some tol, some ld =>
          (match _get_str_value cal_metadata NORMALIZED_HEADER_DATE with
          | some flat_date_str =>
            (match parse_date_chain flat_date_str with
            | some fd =>
              if tol < |rataDie ld - rataDie fd| then Option.none
              else some ⟨filename, (|rataDie ld - rataDie fd| : ℤ)⟩
            | Option.none => some ⟨filename, ⊤⟩)
          | Option.none => some ⟨filename, ⊤⟩)
        | _, _ => some ⟨filename, ⊤⟩

/-- The `candidates` list of `find_matching_flat`, in pool iteration order. -/
def flatCandidates (light_metadata : Meta) (calibration_data : Pool)
    (date_tolerance_days : Option ℤ) (match_gain match_offset : Bool) : List FlatCandidate :=
  match _get_str_value light_metadata NORMALIZED_HEADER_FILTER with
  | Option.none => []
  | some light_filter =>
    calibration_data.filterMap fun e =>
      flatCandidate? light_metadata light_filter
        (lightDateOf light_metadata date_tolerance_days)
        date_tolerance_days match_gain match_offset e.1 e.2

/-- Model of `find_matching_flat`: filter the pool into a candidate list, sort by day
difference (absent compares as `inf`), and return the first candidate's
filename. -/
def find_matching_flat (light_metadata : Meta) (calibration_data : Pool)
    (date_tolerance_days : Option ℤ) (match_gain match_offset : Bool) : Option String :=
  match _get_str_value light_metadata NORMALIZED_HEADER_FILTER with
  | Option.none => Option.none
  | some _ =>
    match (sortByKey FlatCandidate.days_diff
        (flatCandidates light_metadata calibration_data date_tolerance_days
          match_gain match_offset)).head? with
    | Option.none => Option.none
    | some c => some c.filename

/-- The result dictionary of `find_all_matching_calibrations`, with its three
keys `dark`, `bias`, `flat`. -/
structure AllMatches where
  dark : Option String
  bias : Option String
  flat : Option String
deriving DecidableEq

/-- Model of `find_all_matching_calibrations`: call the three matchers independently
on the same light and pool and collect the results. -/
def find_all_matching_calibrations (light_metadata : Meta) (calibration_data : Pool)
    (temperature_tolerance : ℚ) (date_tolerance_days : Option ℤ)
    (prefer_exact_exposure match_gain match_offset : Bool) : AllMatches :=
  { dark := find_matching_dark light_metadata calibration_data temperature_tolerance
      prefer_exact_exposure match_gain match_offset,
    bias := find_matching_bias light_metadata calibration_data match_gain match_offset,
    flat := find_matching_flat light_metadata calibration_data date_tolerance_days
      match_gain match_offset }



end CalibrationMatching

namespace CalibrationMatching

/-! ## Concrete fixtures

Small concrete lights and pools, mirroring the shapes used by the
repository's unit tests, on which the theorems below are instantiated. -/

def lightEx : Meta :=
  [("camera", PyVal.str "ZWO ASI294"), ("exposureseconds", PyVal.str "120.0"),
   ("filter", PyVal.str "Ha"), ("gain", PyVal.str "100"), ("offset", PyVal.str "10"),
   ("settemp", PyVal.str "-10.0"), ("date", PyVal.str "2024-01-15")]

def darkMetaEx : Meta :=
  [("type", PyVal.str "DARK"), ("camera", PyVal.str "ZWO ASI294"),
   ("exposureseconds", PyVal.str "120.0"), ("gain", PyVal.str "100"),
   ("offset", PyVal.str "10")]

def biasMetaEx : Meta :=
  [("type", PyVal.str "BIAS"), ("camera", PyVal.str "ZWO ASI294"),
   ("gain", PyVal.str "100"), ("offset", PyVal.str "10")]

def biasMetaEx2 : Meta :=
  [("type", PyVal.str "MASTER BIAS"), ("camera", PyVal.str "ZWO ASI294"),
   ("gain", PyVal.str "100"), ("offset", PyVal.str "10")]

def flatMetaEx : Meta :=
  [("type", PyVal.str "FLAT"), ("camera", PyVal.str "ZWO ASI294"),
   ("filter", PyVal.str "Ha"), ("gain", PyVal.str "100"), ("offset", PyVal.str "10"),
   ("date", PyVal.str "2024-01-14")]

def poolAllEx : Pool :=
  [("/path/dark.fits", darkMetaEx), ("/path/bias.fits", biasMetaEx),
   ("/path/flat.fits", flatMetaEx)]

def poolBiasTwoEx : Pool :=
  [("/path/bias.fits", biasMetaEx), ("/path/bias2.fits", biasMetaEx2)]

def poolBiasTwoRev : Pool :=
  [("/path/bias2.fits", biasMetaEx2), ("/path/bias.fits", biasMetaEx)]

def nullTempMetaEx : Meta :=
  [("settemp", PyVal.none)]

def badLightEx : Meta :=
  [("camera", PyVal.str "ZWO ASI294"), ("exposureseconds", PyVal.str "not_a_number"),
   ("filter", PyVal.str "Ha"), ("date", PyVal.str "garbage")]

/-! ## Lemmas about the stable sort -/

theorem sortByKey_perm [LinearOrder β] (key : α → β) (l : List α) :
    (sortByKey key l).Perm l :=
  List.perm_insertionSort (keyLe key) l

theorem find?_congr_on {p q : α → Bool} :
    ∀ {l : List α}, (∀ a ∈ l, p a = q a) → l.find? p = l.find? q := by
  intro l
  induction l with
  | nil => intro _; rfl
  | cons x xs ih =>
    intro h
    have hx := h x (List.mem_cons_self x xs)
    cases hq : q x with
    | true => rw [List.find?_cons_of_pos _ (hx.trans hq), List.find?_cons_of_pos _ hq]
    | false =>
      rw [List.find?_cons_of_neg _ (by rw [hx, hq]; exact Bool.false_ne_true),
        List.find?_cons_of_neg _ (by rw [hq]; exact Bool.false_ne_true)]
      exact ih fun a ha => h a (List.mem_cons_of_mem _ ha)

/-- The head of the stable sort is the first element of the original list
whose key is less than or equal to every key in the list: Python's stable
`sort` followed by `[0]` selects the earliest minimum. -/
theorem head?_sortByKey [LinearOrder β] (key : α → β) :
    ∀ l : List α,
      (sortByKey key l).head? = l.find? (fun a => decide (∀ b ∈ l, key a ≤ key b)) := by
  intro l
  induction l with
  | nil => rfl
  | cons x xs ih =>
    by_cases hx : ∀ b ∈ x :: xs, key x ≤ key b
    · rw [List.find?_cons_of_pos _ (by simpa using hx)]
      show (List.orderedInsert (keyLe key) x (sortByKey key xs)).head? = some x
      cases hs : sortByKey key xs with
      | nil => rfl
      | cons h t =>
        have hh : h ∈ xs := by
          have hmem : h ∈ sortByKey key xs := by rw [hs]; exact List.mem_cons_self h t
          exact (sortByKey_perm key xs).mem_iff.mp hmem
        have hxh : keyLe key x h := hx h (List.mem_cons_of_mem _ hh)
        simp [List.orderedInsert, hxh]
    · push_neg at hx
      obtain ⟨b, hb, hblt⟩ := hx
      have hbxs : b ∈ xs := by
        rcases List.mem_cons.mp hb with h1 | h1
        · exact absurd (h1 ▸ hblt) (lt_irrefl _)
        · exact h1
      rw [List.find?_cons_of_neg _ (by
        simp only [decide_eq_true_eq]
        push_neg
        exact ⟨b, hb, hblt⟩)]
      have hcong : ∀ a ∈ xs, (fun a => decide (∀ b ∈ x :: xs, key a ≤ key b)) a
          = (fun a => decide (∀ b ∈ xs, key a ≤ key b)) a := by
        intro a ha
        simp only [decide_eq_decide]
        constructor
        · intro hall c hc
          exact hall c (List.mem_cons_of_mem _ hc)
        · intro hall c hc
          rcases List.mem_cons.mp hc with rfl | hc2
          · exact le_of_lt (lt_of_le_of_lt (hall b hbxs) hblt)
          · exact hall c hc2
      rw [find?_congr_on hcong, ← ih]
      show (List.orderedInsert (keyLe key) x (sortByKey key xs)).head? = (sortByKey key xs).head?
      cases hs : sortByKey key xs with
      | nil =>
        exfalso
        have hnil : xs = [] := by
          have hperm : xs.Perm ([] : List α) := by
            rw [← hs]; exact (sortByKey_perm key xs).symm
          exact hperm.eq_nil
        rw [hnil] at hbxs
        exact absurd hbxs (List.not_mem_nil b)
      | cons h t =>
        have hfind : xs.find? (fun a => decide (∀ b ∈ xs, key a ≤ key b)) = some h := by
          rw [← ih, hs]; rfl
        have hph := List.find?_some hfind
        have hhall : ∀ c ∈ xs, key h ≤ key c := by simpa using hph
        have hxh : ¬ keyLe key x h :=
          not_le.mpr (lt_of_le_of_lt (hhall b hbxs) hblt)
        simp [List.orderedInsert, hxh]

end CalibrationMatching

namespace CalibrationMatching

/-! ## Inversion lemmas for the candidate filters -/

theorem mem_of_head?_eq_some {l : List α} {a : α} (h : l.head? = some a) : a ∈ l := by
  cases l with
  | nil => exact absurd h (by simp)
  | cons x xs =>
    rw [List.head?_cons] at h
    cases Option.some.inj h
    exact List.mem_cons_self _ _

theorem darkCandidate?_eq_some {light_metadata : Meta} {light_exposure : ℚ}
    {light_temp : Option ℚ} {tol : ℚ} {g o : Bool} {fn : String} {cal : Meta}
    {c : DarkCandidate}
    (h : darkCandidate? light_metadata light_exposure light_temp tol g o fn cal = some c) :
    c.filename = fn ∧
    _get_float_value cal NORMALIZED_HEADER_EXPOSURESECONDS = some c.exposure ∧
    light_exposure ≤ c.exposure ∧
    c.exposure_diff = c.exposure - light_exposure ∧
    c.is_exact = decide (|c.exposure - light_exposure| < 0.001) ∧
    temp_check_ok light_temp (_get_float_value cal NORMALIZED_HEADER_SETTEMP) tol = true := by
  unfold darkCandidate? at h
  split at h
  · exact absurd h (by simp)
  split at h
  · exact absurd h (by simp)
  split at h
  · exact absurd h (by simp)
  rename_i dark_exposure heq
  split at h
  · exact absurd h (by simp)
  split at h
  · exact absurd h (by simp)
  rename_i hlt htc
  cases Option.some.inj h
  refine ⟨rfl, heq, le_of_not_lt hlt, rfl, rfl, ?_⟩
  simpa using htc

theorem flatCandidate?_filename {light_metadata : Meta} {light_filter : String}
    {light_date : Option PDate} {dtol : Option ℤ} {g o : Bool} {fn : String} {cal : Meta}
    {c : FlatCandidate}
    (h : flatCandidate? light_metadata light_filter light_date dtol g o fn cal = some c) :
    c.filename = fn := by
  unfold flatCandidate? at h
  split at h
  · exact absurd h (by simp)
  split at h
  · exact absurd h (by simp)
  split at h
  · exact absurd h (by simp)
  split at h
  · exact absurd h (by simp)
  split at h
  · split at h
    · split at h
      · split at h
        · exact absurd h (by simp)
        · cases Option.some.inj h; rfl
      · cases Option.some.inj h; rfl
    · cases Option.some.inj h; rfl
  · cases Option.some.inj h; rfl

end CalibrationMatching

namespace CalibrationMatching

/-! ## Result helpers for the three matchers -/

theorem darkCandidates_eq (l : Meta) (p : Pool) {le : ℚ} (tol : ℚ) (g o : Bool)
    (hle : _get_float_value l NORMALIZED_HEADER_EXPOSURESECONDS = some le) :
    darkCandidates l p tol g o
      = p.filterMap (fun e => darkCandidate? l le
          (_get_float_value l NORMALIZED_HEADER_SETTEMP) tol g o e.1 e.2) := by
  unfold darkCandidates
  rw [hle]

theorem darkCandidates_mem_inv {l : Meta} {p : Pool} {tol le : ℚ} {g o : Bool}
    {c : DarkCandidate}
    (hle : _get_float_value l NORMALIZED_HEADER_EXPOSURESECONDS = some le)
    (hmem : c ∈ darkCandidates l p tol g o) :
    ∃ cal, (c.filename, cal) ∈ p ∧
      darkCandidate? l le (_get_float_value l NORMALIZED_HEADER_SETTEMP) tol g o
        c.filename cal = some c := by
  rw [darkCandidates_eq l p tol g o hle] at hmem
  obtain ⟨e, hep, heq⟩ := List.mem_filterMap.mp hmem
  obtain ⟨efn, ecal⟩ := e
  obtain ⟨hfn, -⟩ := darkCandidate?_eq_some heq
  rw [hfn]
  exact ⟨ecal, hep, heq⟩

theorem find_matching_dark_some {l : Meta} {p : Pool} {tol : ℚ} {pe g o : Bool} {fn : String}
    (h : find_matching_dark l p tol pe g o = some fn) :
    ∃ le, _get_float_value l NORMALIZED_HEADER_EXPOSURESECONDS = some le ∧
      ∃ cal c, (fn, cal) ∈ p ∧
        darkCandidate? l le (_get_float_value l NORMALIZED_HEADER_SETTEMP) tol g o fn cal
          = some c := by
  unfold find_matching_dark at h
  split at h
  · exact absurd h (by simp)
  rename_i le hle
  refine ⟨le, hle, ?_⟩
  split at h
  · exact absurd h (by simp)
  rename_i c hc
  cases Option.some.inj h
  have hmem : c ∈ darkCandidates l p tol g o := by
    split at hc
    · exact (sortByKey_perm _ _).mem_iff.mp (mem_of_head?_eq_some hc)
    · exact (sortByKey_perm _ _).mem_iff.mp (mem_of_head?_eq_some hc)
  obtain ⟨cal, hep, heq⟩ := darkCandidates_mem_inv hle hmem
  exact ⟨cal, c, hep, heq⟩

theorem find_matching_flat_some {l : Meta} {p : Pool} {dtol : Option ℤ} {g o : Bool} {fn : String}
    (h : find_matching_flat l p dtol g o = some fn) :
    ∃ lf, _get_str_value l NORMALIZED_HEADER_FILTER = some lf ∧
      ∃ cal c, (fn, cal) ∈ p ∧
        flatCandidate? l lf (lightDateOf l dtol) dtol g o fn cal = some c := by
  unfold find_matching_flat at h
  split at h
  · exact absurd h (by simp)
  rename_i lf hlf
  refine ⟨lf, hlf, ?_⟩
  split at h
  · exact absurd h (by simp)
  rename_i c hc
  cases Option.some.inj h
  have hmem : c ∈ flatCandidates l p dtol g o :=
    (sortByKey_perm _ _).mem_iff.mp (mem_of_head?_eq_some hc)
  rw [show flatCandidates l p dtol g o
      = p.filterMap (fun e => flatCandidate? l lf (lightDateOf l dtol) dtol g o e.1 e.2) by
    unfold flatCandidates; rw [hlf]] at hmem
  obtain ⟨e, hep, heq⟩ := List.mem_filterMap.mp hmem
  obtain ⟨efn, ecal⟩ := e
  have hfn := flatCandidate?_filename heq
  rw [hfn]
  exact ⟨ecal, c, hep, heq⟩

theorem find_matching_bias_eq_find? (l : Meta) (g o : Bool) :
    ∀ p : Pool,
      find_matching_bias l p g o
        = (p.find? fun e => biasQualifies l e.2 g o).map Prod.fst := by
  intro p
  induction p with
  | nil => rfl
  | cons e rest ih =>
    obtain ⟨fn, cal⟩ := e
    by_cases hq : biasQualifies l cal g o = true
    · rw [List.find?_cons_of_pos _ (by simpa using hq)]
      have h12 : _is_calibration_type cal TYPE_BIAS TYPE_MASTER_BIAS = true ∧
          _matches_camera_settings l cal g o = true := by
        simpa [biasQualifies] using hq
      simp [find_matching_bias, h12.1, h12.2]
    · rw [List.find?_cons_of_neg _ (by simpa using hq), ← ih]
      by_cases h1 : _is_calibration_type cal TYPE_BIAS TYPE_MASTER_BIAS = true
      · have h2 : _matches_camera_settings l cal g o = false := by
          cases hmc : _matches_camera_settings l cal g o
          · rfl
          · exact absurd (by simp [biasQualifies, h1, hmc]) hq
        simp [find_matching_bias, h1, h2]
      · have h1f : _is_calibration_type cal TYPE_BIAS TYPE_MASTER_BIAS = false :=
          Bool.eq_false_iff.mpr h1
        simp [find_matching_bias, h1f]

/-! ## Symmetry of the camera-settings check -/

theorem gainMismatch_symm (a b : Meta) : gainMismatch a b = gainMismatch b a := by
  unfold gainMismatch
  cases _get_float_value a NORMALIZED_HEADER_GAIN <;>
    cases _get_float_value b NORMALIZED_HEADER_GAIN <;>
      simp only []
  rw [decide_eq_decide]
  exact ne_comm

theorem offsetMismatch_symm (a b : Meta) : offsetMismatch a b = offsetMismatch b a := by
  unfold offsetMismatch
  cases _get_float_value a NORMALIZED_HEADER_OFFSET <;>
    cases _get_float_value b NORMALIZED_HEADER_OFFSET <;>
      simp only []
  rw [decide_eq_decide]
  exact ne_comm

end CalibrationMatching

namespace CalibrationMatching

/-! ## The claims -/

/-- Claim C1: the spec asserts that a compact numeric `YYYYMMDD` date string
is parsed by the fallback chain to the calendar date it denotes (on both the
light and the candidate side), so that the computed day difference equals the
true day difference.  The code truncates the input to 7 characters before
applying `%Y%m%d`, so `"20240115"` parses as 2024-01-01 and `"20240131"` as
2024-01-03: the computed difference is 2 days where the true difference of
the denoted dates is 16, and `"20240105"` fails to parse altogether. -/
theorem claim_C1_compact_date_misparsed :
    compactDateDenotes "20240115" = some ⟨2024, 1, 15⟩ ∧
    parse_date_chain "20240115" = some ⟨2024, 1, 1⟩ ∧
    compactDateDenotes "20240131" = some ⟨2024, 1, 31⟩ ∧
    parse_date_chain "20240131" = some ⟨2024, 1, 3⟩ ∧
    |rataDie ⟨2024, 1, 1⟩ - rataDie ⟨2024, 1, 3⟩| = 2 ∧
    |rataDie ⟨2024, 1, 15⟩ - rataDie ⟨2024, 1, 31⟩| = 16 ∧
    parse_date_chain "20240105" = Option.none := by
  refine ⟨by decide, by decide, by decide, by decide, by decide, by decide, by decide⟩

/-- Claim C6: `find_all_matching_calibrations` returns exactly the three
results of the single-type matchers called independently with the same
arguments. -/
theorem claim_C6_find_all_composition (l : Meta) (p : Pool) (tol : ℚ) (dtol : Option ℤ)
    (pe g o : Bool) :
    (find_all_matching_calibrations l p tol dtol pe g o).dark
        = find_matching_dark l p tol pe g o ∧
    (find_all_matching_calibrations l p tol dtol pe g o).bias
        = find_matching_bias l p g o ∧
    (find_all_matching_calibrations l p tol dtol pe g o).flat
        = find_matching_flat l p dtol g o :=
  ⟨rfl, rfl, rfl⟩

/-- Claim C9: the camera-settings check is symmetric in its two metadata
arguments, for every setting of the gain and offset flags. -/
theorem claim_C9_camera_settings_symm (a b : Meta) (g o : Bool) :
    _matches_camera_settings a b g o = _matches_camera_settings b a g o := by
  unfold _matches_camera_settings
  cases hca : _get_str_value a NORMALIZED_HEADER_CAMERA with
  | none =>
    cases hcb : _get_str_value b NORMALIZED_HEADER_CAMERA with
    | none => rfl
    | some cb => rfl
  | some ca =>
    cases hcb : _get_str_value b NORMALIZED_HEADER_CAMERA with
    | none => rfl
    | some cb =>
      by_cases heq : ca = cb
      · subst heq
        simp [gainMismatch_symm a b, offsetMismatch_symm a b]
      · simp [heq, Ne.symm heq]

end CalibrationMatching

namespace CalibrationMatching

/-- Claim C2: whenever `find_matching_dark` returns an identifier, the
returned pool entry's `exposureseconds` coerces to a number that is at least
the light's exposure; a strictly shorter dark is never returned. -/
theorem claim_C2_dark_exposure_ge (l : Meta) (p : Pool) (tol : ℚ) (pe g o : Bool)
    (fn : String) (h : find_matching_dark l p tol pe g o = some fn) :
    ∃ le, _get_float_value l NORMALIZED_HEADER_EXPOSURESECONDS = some le ∧
      ∃ cal de, (fn, cal) ∈ p ∧
        _get_float_value cal NORMALIZED_HEADER_EXPOSURESECONDS = some de ∧ le ≤ de := by
  obtain ⟨le, hle, cal, c, hmem, heq⟩ := find_matching_dark_some h
  obtain ⟨-, hexp, hge, -, -, -⟩ := darkCandidate?_eq_some heq
  exact ⟨le, hle, cal, c.exposure, hmem, hexp, hge⟩

theorem claim_C2_witness :
    ∃ le, _get_float_value lightEx NORMALIZED_HEADER_EXPOSURESECONDS = some le ∧
      ∃ cal de, ("/path/dark.fits", cal) ∈ poolAllEx ∧
        _get_float_value cal NORMALIZED_HEADER_EXPOSURESECONDS = some de ∧ le ≤ de :=
  claim_C2_dark_exposure_ge lightEx poolAllEx 5 true true true "/path/dark.fits" (by decide)

/-- Claim C5: with both temperatures present, a dark candidate is excluded by
the temperature filter exactly when the absolute difference strictly exceeds
the tolerance; a difference equal to the tolerance passes; the check is
symmetric; a missing temperature on either side skips the check; and a
failing check with a present candidate temperature makes the candidate
filter reject the entry. -/
theorem claim_C5_temperature_filter (lt dt tol : ℚ) (a : Option ℚ) (l : Meta) (le : ℚ)
    (g o : Bool) (fn : String) (cal : Meta) :
    (temp_check_ok (some lt) (some dt) tol = false ↔ tol < |lt - dt|) ∧
    (|lt - dt| = tol → temp_check_ok (some lt) (some dt) tol = true) ∧
    temp_check_ok (some lt) (some dt) tol = temp_check_ok (some dt) (some lt) tol ∧
    temp_check_ok Option.none a tol = true ∧
    temp_check_ok a Option.none tol = true ∧
    (tol < |lt - dt| → _get_float_value cal NORMALIZED_HEADER_SETTEMP = some dt →
      darkCandidate? l le (some lt) tol g o fn cal = Option.none) := by
  refine ⟨?_, ?_, ?_, ?_, ?_, ?_⟩
  · simp [temp_check_ok]
  · intro hb
    simp [temp_check_ok, hb]
  · simp [temp_check_ok, abs_sub_comm]
  · cases a <;> rfl
  · cases a <;> rfl
  · intro hgt hdt
    have htc : temp_check_ok (some lt)
        (_get_float_value cal NORMALIZED_HEADER_SETTEMP) tol = false := by
      rw [hdt]
      simp [temp_check_ok, hgt]
    unfold darkCandidate?
    rw [htc]
    split
    · rfl
    split
    · rfl
    split
    · rfl
    split
    · rfl
    simp

theorem claim_C5_witness :
    temp_check_ok (some (-10 : ℚ)) (some (-5)) 5 = true ∧
    temp_check_ok (some (-10 : ℚ)) (some 10) 5 = false := by
  constructor
  · exact (claim_C5_temperature_filter (-10) (-5) 5 Option.none [] 0 true true "" []).2.1
      (by norm_num)
  · exact (claim_C5_temperature_filter (-10) 10 5 Option.none [] 0 true true "" []).1.mpr
      (by norm_num)

/-- Claim C10: with a negative tolerance and a numeric light temperature,
every candidate with a numeric temperature fails the temperature filter (even
at equal temperatures, since `0 > tolerance`), while candidates lacking a
numeric temperature skip the check; hence any identifier returned by
`find_matching_dark` names an entry with no coercible `settemp`. -/
theorem claim_C10_negative_tolerance (l : Meta) (p : Pool) (tol : ℚ) (pe g o : Bool)
    (lt : ℚ) (hneg : tol < 0)
    (hlt : _get_float_value l NORMALIZED_HEADER_SETTEMP = some lt) :
    (∀ dt : ℚ, temp_check_ok (some lt) (some dt) tol = false) ∧
    temp_check_ok (some lt) Option.none tol = true ∧
    (∀ fn, find_matching_dark l p tol pe g o = some fn →
      ∃ cal, (fn, cal) ∈ p ∧
        _get_float_value cal NORMALIZED_HEADER_SETTEMP = Option.none) := by
  refine ⟨?_, rfl, ?_⟩
  · intro dt
    simp [temp_check_ok, lt_of_lt_of_le hneg (abs_nonneg _)]
  · intro fn h
    obtain ⟨le, hle, cal, c, hmem, heq⟩ := find_matching_dark_some h
    obtain ⟨-, -, -, -, -, htc⟩ := darkCandidate?_eq_some heq
    refine ⟨cal, hmem, ?_⟩
    rw [hlt] at htc
    cases hct : _get_float_value cal NORMALIZED_HEADER_SETTEMP with
    | none => rfl
    | some dt =>
      rw [hct] at htc
      have : temp_check_ok (some lt) (some dt) tol = false := by
        simp [temp_check_ok, lt_of_lt_of_le hneg (abs_nonneg _)]
      rw [this] at htc
      exact absurd htc (by simp)

theorem claim_C10_witness :
    temp_check_ok (some (-10 : ℚ)) (some (-10)) (-1) = false ∧
    temp_check_ok (some (-10 : ℚ)) Option.none (-1) = true ∧
    ∃ cal, ("/path/dark.fits", cal) ∈ poolAllEx ∧
      _get_float_value cal NORMALIZED_HEADER_SETTEMP = Option.none := by
  have h := claim_C10_negative_tolerance lightEx poolAllEx (-1) true true true (-10)
    (by norm_num) (by decide)
  exact ⟨h.1 (-10), h.2.1, h.2.2 "/path/dark.fits" (by decide)⟩

end CalibrationMatching

namespace CalibrationMatching

/-! ## Remaining helpers -/

theorem filterMap_congr_on {f g : α → Option β} :
    ∀ {l : List α}, (∀ a ∈ l, f a = g a) → l.filterMap f = l.filterMap g := by
  intro l
  induction l with
  | nil => intro _; rfl
  | cons x xs ih =>
    intro h
    rw [List.filterMap_cons, List.filterMap_cons, h x (List.mem_cons_self x xs),
      ih fun a ha => h a (List.mem_cons_of_mem _ ha)]

theorem lightDateOf_none_tol (l : Meta) : lightDateOf l Option.none = Option.none := by
  unfold lightDateOf
  cases _get_str_value l NORMALIZED_HEADER_DATE <;> rfl

theorem flatCandidate?_no_date (l : Meta) (lf : String) (dtol : Option ℤ) (g o : Bool)
    (fn : String) (cal : Meta) :
    flatCandidate? l lf Option.none dtol g o fn cal
      = flatCandidate? l lf Option.none Option.none g o fn cal := by
  unfold flatCandidate?
  cases dtol <;> rfl

/-- Claim C3: with `prefer_exact_exposure` set, `find_matching_dark` returns
the filename of the first surviving candidate, in pool iteration order, whose
sort key `(not is_exact, exposure_diff)` is lexicographically least: exact
candidates beat all non-exact ones, within each bucket the smallest exposure
difference wins, and ties keep pool order (stable sort). -/
theorem claim_C3_dark_prefer_exact_selection (l : Meta) (p : Pool) (tol : ℚ) (g o : Bool) :
    find_matching_dark l p tol true g o
      = ((darkCandidates l p tol g o).find? fun c =>
          decide (∀ c2 ∈ darkCandidates l p tol g o, darkSortKey c ≤ darkSortKey c2)).map
          DarkCandidate.filename := by
  unfold find_matching_dark
  split
  · rename_i hle
    rw [show darkCandidates l p tol g o = [] from by unfold darkCandidates; rw [hle]]
    rfl
  · rename_i le hle
    show (match (sortByKey darkSortKey (darkCandidates l p tol g o)).head? with
        | Option.none => Option.none
        | some c => some c.filename)
        = ((darkCandidates l p tol g o).find? fun c =>
            decide (∀ c2 ∈ darkCandidates l p tol g o, darkSortKey c ≤ darkSortKey c2)).map
            DarkCandidate.filename
    rw [head?_sortByKey]
    cases (darkCandidates l p tol g o).find?
        (fun c => decide (∀ c2 ∈ darkCandidates l p tol g o, darkSortKey c ≤ darkSortKey c2)) with
    | none => rfl
    | some c => rfl

/-- Claim C4: `find_matching_bias` returns the identifier of the first pool
entry, in iteration order, that is a bias frame and passes the
camera-settings check (`Option.none` when no entry passes); consequently a
reordering of the pool whose first qualifying entry has a different
identifier changes the result. -/
theorem claim_C4_bias_first_match (l : Meta) (g o : Bool) (p : Pool) :
    find_matching_bias l p g o
      = (p.find? fun e => biasQualifies l e.2 g o).map Prod.fst ∧
    (∀ p2 : Pool, ∀ e e2 : String × Meta, p2.Perm p →
      (p.find? fun e3 => biasQualifies l e3.2 g o) = some e →
      (p2.find? fun e3 => biasQualifies l e3.2 g o) = some e2 →
      e.1 ≠ e2.1 →
      find_matching_bias l p g o ≠ find_matching_bias l p2 g o) := by
  refine ⟨find_matching_bias_eq_find? l g o p, ?_⟩
  intro p2 e e2 hperm hfe hfe2 hne
  rw [find_matching_bias_eq_find? l g o p, find_matching_bias_eq_find? l g o p2, hfe, hfe2]
  intro hcontra
  exact hne (by simpa using hcontra)

theorem claim_C4_witness :
    find_matching_bias lightEx poolBiasTwoEx true true
      ≠ find_matching_bias lightEx poolBiasTwoRev true true :=
  (claim_C4_bias_first_match lightEx true true poolBiasTwoEx).2 poolBiasTwoRev
    ("/path/bias.fits", biasMetaEx) ("/path/bias2.fits", biasMetaEx2)
    (List.Perm.swap ("/path/bias.fits", biasMetaEx) ("/path/bias2.fits", biasMetaEx2) [])
    (by decide) (by decide) (by decide)

/-- Claim C7: every identifier returned by any of the three matchers is a key
of the input pool, never a synthesized or modified one. -/
theorem claim_C7_identifiers_from_pool (l : Meta) (p : Pool) (tol : ℚ) (dtol : Option ℤ)
    (pe g o : Bool) :
    (∀ fn, find_matching_dark l p tol pe g o = some fn → fn ∈ p.map Prod.fst) ∧
    (∀ fn, find_matching_bias l p g o = some fn → fn ∈ p.map Prod.fst) ∧
    (∀ fn, find_matching_flat l p dtol g o = some fn → fn ∈ p.map Prod.fst) := by
  refine ⟨?_, ?_, ?_⟩
  · intro fn h
    obtain ⟨le, hle, cal, c, hmem, -⟩ := find_matching_dark_some h
    exact List.mem_map.mpr ⟨(fn, cal), hmem, rfl⟩
  · intro fn h
    rw [find_matching_bias_eq_find? l g o p] at h
    cases hf : p.find? fun e => biasQualifies l e.2 g o with
    | none => rw [hf] at h; exact absurd h (by simp)
    | some e =>
      rw [hf] at h
      have he : e ∈ p := List.mem_of_find?_eq_some hf
      have hfst : e.1 = fn := by simpa using h
      exact hfst ▸ List.mem_map.mpr ⟨e, he, rfl⟩
  · intro fn h
    obtain ⟨lf, hlf, cal, c, hmem, -⟩ := find_matching_flat_some h
    exact List.mem_map.mpr ⟨(fn, cal), hmem, rfl⟩

theorem claim_C7_witness :
    "/path/dark.fits" ∈ poolAllEx.map Prod.fst ∧
    "/path/bias.fits" ∈ poolAllEx.map Prod.fst ∧
    "/path/flat.fits" ∈ poolAllEx.map Prod.fst :=
  ⟨(claim_C7_identifiers_from_pool lightEx poolAllEx 5 (some 30) true true true).1 _
      (by decide),
   (claim_C7_identifiers_from_pool lightEx poolAllEx 5 (some 30) true true true).2.1 _
      (by decide),
   (claim_C7_identifiers_from_pool lightEx poolAllEx 5 (some 30) true true true).2.2 _
      (by decide)⟩

/-- Claim C8: the matchers never fault; missing keys, explicit nulls and
failed coercions degrade to absence: an absent value from the numeric reader,
no-match when the light lacks its required field, and a skipped date check
(same result as with no date tolerance at all) when the light's date cannot
be parsed. -/
theorem claim_C8_degrade_to_absence (m l : Meta) (k s : String) (p : Pool)
    (tol : ℚ) (n : ℤ) (pe g o : Bool) :
    (m.lookup k = Option.none → _get_float_value m k = Option.none) ∧
    (m.lookup k = some PyVal.none → _get_float_value m k = Option.none) ∧
    (m.lookup k = some (PyVal.str s) → pyFloat? s = Option.none →
      _get_float_value m k = Option.none) ∧
    (_get_float_value l NORMALIZED_HEADER_EXPOSURESECONDS = Option.none →
      find_matching_dark l p tol pe g o = Option.none) ∧
    (_get_str_value l NORMALIZED_HEADER_FILTER = Option.none →
      find_matching_flat l p (some n) g o = Option.none) ∧
    (lightDateOf l (some n) = Option.none →
      find_matching_flat l p (some n) g o = find_matching_flat l p Option.none g o) := by
  refine ⟨?_, ?_, ?_, ?_, ?_, ?_⟩
  · intro h; unfold _get_float_value; rw [h]
  · intro h; unfold _get_float_value; rw [h]
  · intro h hs; unfold _get_float_value; rw [h]; exact hs
  · intro h; unfold find_matching_dark; rw [h]
  · intro h; unfold find_matching_flat; rw [h]
  · intro h
    have hcands : flatCandidates l p (some n) g o = flatCandidates l p Option.none g o := by
      unfold flatCandidates
      cases hlf : _get_str_value l NORMALIZED_HEADER_FILTER with
      | none => rfl
      | some lf =>
        refine filterMap_congr_on ?_
        intro e he
        rw [h, lightDateOf_none_tol l]
        exact flatCandidate?_no_date l lf (some n) g o e.1 e.2
    unfold find_matching_flat
    rw [hcands]

theorem claim_C8_witness :
    _get_float_value badLightEx "settemp" = Option.none ∧
    _get_float_value nullTempMetaEx "settemp" = Option.none ∧
    _get_float_value badLightEx "exposureseconds" = Option.none ∧
    find_matching_dark badLightEx poolAllEx 5 true true true = Option.none ∧
    find_matching_flat nullTempMetaEx poolAllEx (some 30) true true = Option.none ∧
    find_matching_flat badLightEx poolAllEx (some 30) true true
      = find_matching_flat badLightEx poolAllEx Option.none true true := by
  refine ⟨?_, ?_, ?_, ?_, ?_, ?_⟩
  · exact (claim_C8_degrade_to_absence badLightEx badLightEx "settemp" "" poolAllEx 5 30
      true true true).1 (by decide)
  · exact (claim_C8_degrade_to_absence nullTempMetaEx nullTempMetaEx "settemp" "" poolAllEx 5 30
      true true true).2.1 (by decide)
  · exact (claim_C8_degrade_to_absence badLightEx badLightEx "exposureseconds" "not_a_number"
      poolAllEx 5 30 true true true).2.2.1 (by decide) (by decide)
  · exact (claim_C8_degrade_to_absence badLightEx badLightEx "" "" poolAllEx 5 30
      true true true).2.2.2.1 (by decide)
  · exact (claim_C8_degrade_to_absence nullTempMetaEx nullTempMetaEx "" "" poolAllEx 5 30
      true true true).2.2.2.2.1 (by decide)
  · exact (claim_C8_degrade_to_absence badLightEx badLightEx "" "" poolAllEx 5 30
      true true true).2.2.2.2.2 (by decide)

end CalibrationMatching
